import Mathlib

/-!
Verification development for the landmark-rs voxel meshing core
(`landmark-client/src/game_map.rs`, `mesher.rs`, `model.rs`, `loader.rs`).

Shallow embedding conventions:
* `i32` / `u32` / `usize` values are modelled as `Int` / `Nat`; where the
  source can wrap (the `as usize` cast in `InnerChunkCoords::as_idx`, the
  `u16` index arithmetic in `add_block_face`) the wrap is made explicit
  with `% 2^64` resp. `% 2^16`.
* `glam::Vec3` / `glam::Quat` positions are modelled over `Rat`.  The six
  face quaternions of `add_block_face` are exact 90/180 degree rotations;
  they are modelled by the exact linear maps those quaternions denote
  (the `f32` evaluation of the trigonometric functions is approximate,
  but no claim depends on the rounded coordinate values).
* `Vertex.color` stores the `Color` value passed to the constructor; the
  source converts it with the fixed componentwise sRGB map
  (`From<Color> for RawColor`) before storing, which preserves equality
  and distinctness of the colors that occur here.
* A chunk's `Vec<Option<BlockId>>` (whose length is invariantly
  `BLOCKS_COUNT`, see `Chunk::new` / `set_block`) is modelled as a total
  function from flat indices to cells; indices outside
  `[0, BLOCKS_COUNT)` are never produced by the meshing code below.
* Rust panics (`unwrap`, `panic!`) in the pipeline glue are modelled as
  `Except.error`; a clean return is `Except.ok`.
-/

/-- u32 block identifier (`pub type BlockId = u32;`). -/
abbrev BlockId := Nat

/-- RGB color with u8 components (`color.rs::Color`). -/
structure Color where
  r : Nat
  g : Nat
  b : Nat
deriving DecidableEq, Repr

/-- Source `Color::new` from color.rs. -/
def Color.new (r g b : Nat) : Color := ⟨r, g, b⟩

/-- Exact-rational model of `glam::Vec3`. -/
structure Vec3 where
  x : Rat
  y : Rat
  z : Rat
deriving DecidableEq, Repr

instance : Add Vec3 := ⟨fun a b => ⟨a.x + b.x, a.y + b.y, a.z + b.z⟩⟩

theorem Vec3.add_def (a b : Vec3) :
    a + b = ⟨a.x + b.x, a.y + b.y, a.z + b.z⟩ := rfl

/-- Model of `glam::Quat`; only the identity rotation occurs in the core. -/
structure Quat where
  x : Rat
  y : Rat
  z : Rat
  w : Rat
deriving DecidableEq, Repr

/-- Source `glam::Quat::IDENTITY`. -/
def Quat.IDENTITY : Quat := ⟨0, 0, 0, 1⟩

/-- Source `transform.rs::Transform` (rotation + translation). -/
structure Transform where
  rotation : Quat
  translation : Vec3
deriving DecidableEq, Repr

/-- Source `Transform::default()`: identity rotation, zero translation. -/
def Transform.default : Transform := ⟨Quat.IDENTITY, ⟨0, 0, 0⟩⟩

/-- Source `model.rs::Vertex` (position + color; see the header note on
`RawColor`). -/
structure Vertex where
  position : Vec3
  color : Color
deriving DecidableEq, Repr

/-- Source `game_map.rs::ChunkCoords`: i32 triple in chunk-grid space. -/
structure ChunkCoords where
  x : Int
  y : Int
  z : Int
deriving DecidableEq, Repr

/-- Source `ChunkCoords::new`. -/
def ChunkCoords.new (x y z : Int) : ChunkCoords := ⟨x, y, z⟩

/-- Source `ChunkCoords::as_translation`: each axis times `Chunk::SIZE` (= 32),
computed in f32 in the source; exact over `Rat` for the i32 range used. -/
def ChunkCoords.as_translation (c : ChunkCoords) : Vec3 :=
  ⟨(c.x : Rat) * 32, (c.y : Rat) * 32, (c.z : Rat) * 32⟩

/-- Component-wise `ops::Add for ChunkCoords`. -/
def ChunkCoords.add (a b : ChunkCoords) : ChunkCoords :=
  ⟨a.x + b.x, a.y + b.y, a.z + b.z⟩

/-- Source `game_map.rs::InnerChunkCoords`: i32 triple addressing a block inside
a chunk.  NOTE: the source constructor performs no bounds validation. -/
structure InnerChunkCoords where
  x : Int
  y : Int
  z : Int
deriving DecidableEq, Repr

/-- Source `InnerChunkCoords::new` — translated verbatim: it stores the three
integers without any bounds check (`Self { x, y, z }`). -/
def InnerChunkCoords.new (x y z : Int) : InnerChunkCoords := ⟨x, y, z⟩

/-- The `as usize` cast of an i32 on a 64-bit target: reduce mod 2^64
(negative values wrap to huge indices). -/
def usizeCast (i : Int) : Nat := (i % (2 : Int) ^ 64).toNat

/-- Source `InnerChunkCoords::as_idx`:
`z * chunk_size * chunk_size + y * chunk_size + x` over `usize`
(`chunk_size = Chunk::SIZE as usize = 32`); the composed wrapping
arithmetic equals one final reduction mod 2^64. -/
def InnerChunkCoords.as_idx (c : InnerChunkCoords) : Nat :=
  (usizeCast c.z * 32 * 32 + usizeCast c.y * 32 + usizeCast c.x) % 2 ^ 64

/-- Source `InnerChunkCoords::as_block_center`: the block position plus 0.5 on
each axis (f32 in the source, exact here). -/
def InnerChunkCoords.as_block_center (c : InnerChunkCoords) : Vec3 :=
  ⟨(c.x : Rat) + 1/2, (c.y : Rat) + 1/2, (c.z : Rat) + 1/2⟩

/-- Component-wise `ops::Add for InnerChunkCoords`. -/
def InnerChunkCoords.add (a b : InnerChunkCoords) : InnerChunkCoords :=
  ⟨a.x + b.x, a.y + b.y, a.z + b.z⟩

/-- Source `mesher.rs::FaceDirection` (identical enum also in game_map.rs). -/
inductive FaceDirection where
  | PosX
  | NegX
  | PosY
  | NegY
  | PosZ
  | NegZ
deriving DecidableEq, Repr

/-- The discriminant of a `FaceDirection` (`FaceDirection::PosX as usize`
and so on: declaration order 0..5). -/
def FaceDirection.toIdx : FaceDirection → Nat
  | .PosX => 0
  | .NegX => 1
  | .PosY => 2
  | .NegY => 3
  | .PosZ => 4
  | .NegZ => 5

/-- Source `From<usize> for FaceDirection` (mesher.rs).  The source panics for
values above 5; every call site below passes `face < 6`, so the panic
branch is unreachable and is mapped to `PosX`. -/
def FaceDirection.fromUsize : Nat → FaceDirection
  | 0 => .PosX
  | 1 => .NegX
  | 2 => .PosY
  | 3 => .NegY
  | 4 => .PosZ
  | 5 => .NegZ
  | _ => .PosX

/-- Source `FaceDirection::is_positive` (game_map.rs). -/
def FaceDirection.is_positive : FaceDirection → Bool
  | .PosX => true
  | .NegX => false
  | .PosY => true
  | .NegY => false
  | .PosZ => true
  | .NegZ => false

/-- Source `FaceDirection::is_x` (game_map.rs). -/
def FaceDirection.is_x : FaceDirection → Bool
  | .PosX => true
  | .NegX => true
  | _ => false

/-- Source `FaceDirection::is_y` (game_map.rs). -/
def FaceDirection.is_y : FaceDirection → Bool
  | .PosY => true
  | .NegY => true
  | _ => false

/-- Source `FaceDirection::is_z` (game_map.rs). -/
def FaceDirection.is_z : FaceDirection → Bool
  | .PosZ => true
  | .NegZ => true
  | _ => false

/-- Source `From<FaceDirection> for InnerChunkCoords` (game_map.rs): the unit
offset of a direction. -/
def InnerChunkCoords.ofFaceDirection : FaceDirection → InnerChunkCoords
  | .PosX => ⟨1, 0, 0⟩
  | .NegX => ⟨-1, 0, 0⟩
  | .PosY => ⟨0, 1, 0⟩
  | .NegY => ⟨0, -1, 0⟩
  | .PosZ => ⟨0, 0, 1⟩
  | .NegZ => ⟨0, 0, -1⟩

/-- Source `game_map.rs::Chunk`: a `Vec<Option<BlockId>>` of invariant length
`BLOCKS_COUNT = 32^3` (see header note), modelled as a total function
from flat indices to cells. -/
structure Chunk where
  blocks : Nat → Option BlockId

namespace Chunk

/-- Source `Chunk::SIZE = 32` (i32 in the source). -/
def SIZE : Int := 32

/-- Source `Chunk::BLOCKS_COUNT = SIZE * SIZE * SIZE = 32768`. -/
def BLOCKS_COUNT : Int := SIZE * SIZE * SIZE

/-- Source `Chunk::new()`: all cells empty. -/
def new : Chunk := ⟨fun _ => none⟩

/-- Source `Chunk::get_block`: read the cell at `coords.as_idx()`.  (For an
in-bounds index this is the vector entry; an out-of-bounds index panics
in the source and is never produced by the code modelled here.) -/
def get_block (c : Chunk) (coords : InnerChunkCoords) : Option BlockId :=
  c.blocks coords.as_idx

/-- Source `Chunk::set_block`: write the cell at `coords.as_idx()`. -/
def set_block (c : Chunk) (coords : InnerChunkCoords) (block : Option BlockId) : Chunk :=
  ⟨fun i => if i = coords.as_idx then block else c.blocks i⟩

end Chunk

/-- Source `mesher.rs::MeshChunkRequest`: snapshot of the target chunk plus the
six optional face-adjacent neighbor chunks. -/
structure MeshChunkRequest where
  requested_coords : ChunkCoords
  requested_chunk : Chunk
  pos_x_adj : Option Chunk
  neg_x_adj : Option Chunk
  pos_y_adj : Option Chunk
  neg_y_adj : Option Chunk
  pos_z_adj : Option Chunk
  neg_z_adj : Option Chunk

/-- Source `model.rs::ModelConstructor`: vertex list, u16 index list, transform. -/
structure ModelConstructor where
  vertices : List Vertex
  indices : List Nat
  transform : Transform
deriving DecidableEq, Repr

/-- Source `ModelConstructor::new()`: empty buffers, default transform. -/
def ModelConstructor.new : ModelConstructor := ⟨[], [], Transform.default⟩

/-- Source `mesher.rs::ConstructedChunk`: finished geometry tagged with its
chunk coordinates. -/
structure ConstructedChunk where
  coords : ChunkCoords
  model_constructor : ModelConstructor

/-- The exact rotation denoted by the per-direction quaternion in
`add_block_face` (mesher.rs lines 65–105); each is a composition of
90/180 degree axis rotations, written out as the linear map it computes:
* PosX: `from_euler(XZY, 0, -90°, -90°)` = Rz(-90°) ∘ Ry(-90°);
* NegX: `from_euler(XZY, 0, 90°, 90°)` = Rz(90°) ∘ Ry(90°);
* PosY: identity;
* NegY: `from_euler(ZYX, 0, 0, 180°)` = Rx(180°);
* PosZ: `from_euler(ZXY, 0, 90°, 180°)` = Rx(90°) ∘ Ry(180°);
* NegZ: `from_euler(ZYX, 0, 0, -90°)` = Rx(-90°). -/
def rotatePoint (face_dir : FaceDirection) (p : Vec3) : Vec3 :=
  match face_dir with
  | .PosX => ⟨p.y, p.z, p.x⟩
  | .NegX => ⟨-p.y, p.z, -p.x⟩
  | .PosY => p
  | .NegY => ⟨p.x, -p.y, -p.z⟩
  | .PosZ => ⟨-p.x, p.z, p.y⟩
  | .NegZ => ⟨p.x, p.z, -p.y⟩

/-- Source `ModelConstructorChunkExt::add_block_face` (mesher.rs lines 44–141):
the four canonical corner points of a +Y facing unit quad are rotated to
the face direction, translated to the block center, turned into vertices
carrying `color`, and appended; then six indices are appended starting
from one past the last index value (u16 arithmetic, wrapping mod 2^16),
in the triangle pattern 0 1 2 / 2 1 3. -/
def ModelConstructor.add_block_face (mc : ModelConstructor)
    (coords : InnerChunkCoords) (face_dir : FaceDirection) (color : Color) :
    ModelConstructor :=
  let a : Vec3 := ⟨-(1/2 : Rat), 1/2, -(1/2 : Rat)⟩
  let b : Vec3 := ⟨(1/2 : Rat), 1/2, -(1/2 : Rat)⟩
  let c : Vec3 := ⟨-(1/2 : Rat), 1/2, (1/2 : Rat)⟩
  let d : Vec3 := ⟨(1/2 : Rat), 1/2, (1/2 : Rat)⟩
  let points : List Vec3 := [a, b, c, d]
  let points := points.map (fun p => rotatePoint face_dir p)
  let points := points.map (fun p => p + coords.as_block_center)
  let vertices : List Vertex := points.map (fun p => ⟨p, color⟩)
  let start_index : Nat :=
    match mc.indices.getLast? with
    | some last => (last + 1) % 2 ^ 16
    | none => 0
  { mc with
    vertices := mc.vertices ++ vertices,
    indices := mc.indices ++
      [(start_index + 0) % 2 ^ 16, (start_index + 1) % 2 ^ 16,
       (start_index + 2) % 2 ^ 16, (start_index + 2) % 2 ^ 16,
       (start_index + 1) % 2 ^ 16, (start_index + 3) % 2 ^ 16] }

/-- Source `FaceVisibilityMap` (mesher.rs line 195): `Vec<[bool; 6]>`, modelled
as a function from flat indices to six-element boolean rows. -/
abbrev FaceVisibilityMap := Nat → List Bool

/-- The `// PosX` block of `generate_visibility_map` (mesher.rs lines
209–224), acting on the six-boolean row of cell `(x, y, z)`. -/
def visPosX (request : MeshChunkRequest) (x y z : Int) (cell : List Bool) :
    List Bool :=
  if x = Chunk.SIZE - 1 then
    match request.pos_x_adj with
    | some adjacents =>
      match adjacents.get_block (InnerChunkCoords.new 0 y z) with
      | none => cell.set FaceDirection.PosX.toIdx true
      | some _ => cell
    | none => cell
  else
    match request.requested_chunk.get_block (InnerChunkCoords.new (x + 1) y z) with
    | none => cell.set FaceDirection.PosX.toIdx true
    | some _ => cell

/-- The `// NegX` block (mesher.rs lines 226–243). -/
def visNegX (request : MeshChunkRequest) (x y z : Int) (cell : List Bool) :
    List Bool :=
  if x = 0 then
    match request.neg_x_adj with
    | some adjacents =>
      match adjacents.get_block (InnerChunkCoords.new (Chunk.SIZE - 1) y z) with
      | none => cell.set FaceDirection.NegX.toIdx true
      | some _ => cell
    | none => cell
  else
    match request.requested_chunk.get_block (InnerChunkCoords.new (x - 1) y z) with
    | none => cell.set FaceDirection.NegX.toIdx true
    | some _ => cell

/-- The `// PosY` block (mesher.rs lines 245–260). -/
def visPosY (request : MeshChunkRequest) (x y z : Int) (cell : List Bool) :
    List Bool :=
  if y = Chunk.SIZE - 1 then
    match request.pos_y_adj with
    | some adjacents =>
      match adjacents.get_block (InnerChunkCoords.new x 0 z) with
      | none => cell.set FaceDirection.PosY.toIdx true
      | some _ => cell
    | none => cell
  else
    match request.requested_chunk.get_block (InnerChunkCoords.new x (y + 1) z) with
    | none => cell.set FaceDirection.PosY.toIdx true
    | some _ => cell

/-- The `// NegY` block (mesher.rs lines 262–279). -/
def visNegY (request : MeshChunkRequest) (x y z : Int) (cell : List Bool) :
    List Bool :=
  if y = 0 then
    match request.neg_y_adj with
    | some adjacents =>
      match adjacents.get_block (InnerChunkCoords.new x (Chunk.SIZE - 1) z) with
      | none => cell.set FaceDirection.NegY.toIdx true
      | some _ => cell
    | none => cell
  else
    match request.requested_chunk.get_block (InnerChunkCoords.new x (y - 1) z) with
    | none => cell.set FaceDirection.NegY.toIdx true
    | some _ => cell

/-- The `// PosZ` block (mesher.rs lines 281–296). -/
def visPosZ (request : MeshChunkRequest) (x y z : Int) (cell : List Bool) :
    List Bool :=
  if z = Chunk.SIZE - 1 then
    match request.pos_z_adj with
    | some adjacents =>
      match adjacents.get_block (InnerChunkCoords.new x y 0) with
      | none => cell.set FaceDirection.PosZ.toIdx true
      | some _ => cell
    | none => cell
  else
    match request.requested_chunk.get_block (InnerChunkCoords.new x y (z + 1)) with
    | none => cell.set FaceDirection.PosZ.toIdx true
    | some _ => cell

/-- The `// NegZ` block (mesher.rs lines 298–315). -/
def visNegZ (request : MeshChunkRequest) (x y z : Int) (cell : List Bool) :
    List Bool :=
  if z = 0 then
    match request.neg_z_adj with
    | some adjacents =>
      match adjacents.get_block (InnerChunkCoords.new x y (Chunk.SIZE - 1)) with
      | none => cell.set FaceDirection.NegZ.toIdx true
      | some _ => cell
    | none => cell
  else
    match request.requested_chunk.get_block (InnerChunkCoords.new x y (z - 1)) with
    | none => cell.set FaceDirection.NegZ.toIdx true
    | some _ => cell

/-- The body of one iteration of the triple loop of
`generate_visibility_map` (mesher.rs lines 209–315) acting on the
six-boolean row of the cell `(x, y, z)`: the six blocks
`// PosX` … `// NegZ` in source order, each conditionally setting its
row slot. -/
def cellBody (request : MeshChunkRequest) (x y z : Int) (cell : List Bool) :
    List Bool :=
  let cell := visPosX request x y z cell
  let cell := visNegX request x y z cell
  let cell := visPosY request x y z cell
  let cell := visNegY request x y z cell
  let cell := visPosZ request x y z cell
  let cell := visNegZ request x y z cell
  cell

/-- One loop iteration of `generate_visibility_map`: if the cell holds no
block, `continue` leaves the map untouched; otherwise the iteration
writes only the row at `coords.as_idx()`, replacing it by `cellBody`
applied to the current row. -/
def visitCell (request : MeshChunkRequest) (x y z : Int)
    (m : FaceVisibilityMap) : FaceVisibilityMap :=
  match request.requested_chunk.get_block (InnerChunkCoords.new x y z) with
  | none => m
  | some _ => fun i =>
      if i = (InnerChunkCoords.new x y z).as_idx then
        cellBody request x y z (m i)
      else m i

/-- Source `generate_visibility_map` (mesher.rs lines 197–321): start from a map
of all-false rows (`vec![[false; 6]; Chunk::BLOCKS_COUNT]`) and run the
`for z { for y { for x } }` triple loop (`0..Chunk::SIZE`, SIZE = 32). -/
def generate_visibility_map (request : MeshChunkRequest) : FaceVisibilityMap :=
  (List.range 32).foldl
    (fun m (zn : Nat) =>
      (List.range 32).foldl
        (fun m (yn : Nat) =>
          (List.range 32).foldl
            (fun m (xn : Nat) =>
              visitCell request ((xn : Nat) : Int) ((yn : Nat) : Int)
                ((zn : Nat) : Int) m)
            m)
        m)
    (fun _ => List.replicate 6 false)

/-- The `if (x + z) % 2 == 0` checkerboard color of `mesh_chunk`
(mesher.rs lines 343–347); the loop variables are non-negative, so Rust's
truncating `%` agrees with `Int.emod`. -/
def parityColor (x z : Int) : Color :=
  if (x + z) % 2 = 0 then Color.new 16 200 16 else Color.new 16 164 16

/-- The body of one iteration of the triple loop of `mesh_chunk`
(mesher.rs lines 336–351): skip the cell when it holds no block,
otherwise, for `face in 0..6`, add a block face whenever the visibility
row at `coords.as_idx()` marks it visible, colored by the (x + z)
checkerboard. -/
def meshCell (request : MeshChunkRequest) (visibility_map : FaceVisibilityMap)
    (x y z : Int) (mc : ModelConstructor) : ModelConstructor :=
  let coords := InnerChunkCoords.new x y z
  match request.requested_chunk.get_block coords with
  | none => mc
  | some _ =>
    (List.range 6).foldl
      (fun mc (face : Nat) =>
        if (visibility_map coords.as_idx).getD face false then
          mc.add_block_face coords (FaceDirection.fromUsize face)
            (parityColor x z)
        else mc)
      mc

/-- Source `mesh_chunk` (mesher.rs lines 323–357): build a `ModelConstructor`
whose transform is the identity rotation plus the chunk translation,
generate the visibility map, and run the `for z { for y { for x } }`
loop over all cells. -/
def mesh_chunk (request : MeshChunkRequest) : ModelConstructor :=
  let visibility_map := generate_visibility_map request
  let mc0 : ModelConstructor :=
    { ModelConstructor.new with
      transform :=
        ⟨Quat.IDENTITY, request.requested_coords.as_translation⟩ }
  (List.range 32).foldl
    (fun mc (zn : Nat) =>
      (List.range 32).foldl
        (fun mc (yn : Nat) =>
          (List.range 32).foldl
            (fun mc (xn : Nat) =>
              meshCell request visibility_map ((xn : Nat) : Int)
                ((yn : Nat) : Int) ((zn : Nat) : Int) mc)
            mc)
        mc)
    mc0

/-- Source `chunk_mesher_loop` (mesher.rs lines 181–192).  The shallow model:
`requests` is the sequence of values `requests.recv()` yields before the
request channel reports disconnection (at which point the `while let Ok`
loop exits normally), and `output_alive` says whether the result channel
still has its receiver (an mpsc send fails exactly when the peer was
dropped, and then keeps failing).  For each request the loop runs
`mesh_chunk` and sends a `ConstructedChunk` carrying
`request.requested_coords`; a failed send hits `.unwrap()`, which
panics (`Except.error`). -/
def chunk_mesher_loop :
    List MeshChunkRequest → Bool → Except Unit (List ConstructedChunk)
  | [], _ => .ok []
  | request :: rest, output_alive =>
    if output_alive then
      match chunk_mesher_loop rest output_alive with
      | .ok results =>
        .ok (⟨request.requested_coords, mesh_chunk request⟩ :: results)
      | .error e => .error e
    else
      .error ()

/-- Source `update_models_sys` (model.rs lines 116–132).  The shallow model:
`queue` is the sequence drained by the `try_recv` loop this frame and
`entity_map` is `game_map.chunk_entity_map` (entity ids as `Nat`).  For
each `ConstructedChunk`, look up the entity for its coordinates; on a
miss the source logs an error and calls `panic!()` (`Except.error`),
otherwise it builds a `Model` from the constructor (GPU-buffer creation
is modelled by keeping the constructor) and attaches it to the entity. -/
def update_models_sys (entity_map : ChunkCoords → Option Nat) :
    List ConstructedChunk → Except Unit (List (Nat × ModelConstructor))
  | [] => .ok []
  | constructed_chunk :: rest =>
    match entity_map constructed_chunk.coords with
    | none => .error ()
    | some id =>
      match update_models_sys entity_map rest with
      | .ok models => .ok ((id, constructed_chunk.model_constructor) :: models)
      | .error e => .error e

/-- Modelled from the spec: `from_idx` does not occur in src/ (§8 of the
spec postulates it as the inverse of the z-major flat layout of
`InnerChunkCoords::as_idx`); it recovers `(x, y, z)` from
`z*SIZE*SIZE + y*SIZE + x`. -/
def from_idx (idx : Nat) : InnerChunkCoords :=
  InnerChunkCoords.new ((idx % 32 : Nat) : Int) ((idx / 32 % 32 : Nat) : Int)
    ((idx / (32 * 32) : Nat) : Int)

/-! ### Arithmetic facts about the flat index -/

theorem two_pow_64_eq : (2 : Int) ^ 64 = 18446744073709551616 := by norm_num

theorem usizeCast_eq {i : Int} (h0 : 0 ≤ i) (h1 : i < 18446744073709551616) :
    usizeCast i = i.toNat := by
  unfold usizeCast
  rw [two_pow_64_eq, Int.emod_eq_of_lt h0 h1]

/-- For in-bounds coordinates the wrapping casts in `as_idx` vanish and
the flat index is the plain z-major formula. -/
theorem as_idx_eq_of_bounds {x y z : Int}
    (hx0 : 0 ≤ x) (hx1 : x < 32) (hy0 : 0 ≤ y) (hy1 : y < 32)
    (hz0 : 0 ≤ z) (hz1 : z < 32) :
    (InnerChunkCoords.new x y z).as_idx = (z * 32 * 32 + y * 32 + x).toNat := by
  show (usizeCast z * 32 * 32 + usizeCast y * 32 + usizeCast x) % 2 ^ 64
      = (z * 32 * 32 + y * 32 + x).toNat
  rw [usizeCast_eq hx0 (by omega), usizeCast_eq hy0 (by omega),
    usizeCast_eq hz0 (by omega)]
  have hp : (2 : Nat) ^ 64 = 18446744073709551616 := by norm_num
  rw [hp, Nat.mod_eq_of_lt (by omega)]
  omega

theorem as_idx_natCast (xn yn zn : Nat) (hx : xn < 32) (hy : yn < 32) (hz : zn < 32) :
    (InnerChunkCoords.new (xn : Int) (yn : Int) (zn : Int)).as_idx
      = zn * 32 * 32 + yn * 32 + xn := by
  rw [as_idx_eq_of_bounds (by omega) (by omega) (by omega) (by omega) (by omega)
    (by omega)]
  omega

/-- C9: for valid (x, y, z) with each axis in [0, SIZE), the flat index
`as_idx` equals `z*SIZE*SIZE + y*SIZE + x`, `from_idx` recovers the
triple from that index, and the maps are mutually inverse bijections
between valid triples and [0, SIZE^3). -/
theorem as_idx_from_idx_bijection :
    (∀ x y z : Int, 0 ≤ x → x < Chunk.SIZE → 0 ≤ y → y < Chunk.SIZE →
      0 ≤ z → z < Chunk.SIZE →
      ((InnerChunkCoords.new x y z).as_idx : Int)
          = z * Chunk.SIZE * Chunk.SIZE + y * Chunk.SIZE + x
        ∧ (InnerChunkCoords.new x y z).as_idx < 32768
        ∧ from_idx (InnerChunkCoords.new x y z).as_idx
            = InnerChunkCoords.new x y z)
    ∧ (∀ idx : Nat, idx < 32768 →
      (0 ≤ (from_idx idx).x ∧ (from_idx idx).x < Chunk.SIZE
        ∧ 0 ≤ (from_idx idx).y ∧ (from_idx idx).y < Chunk.SIZE
        ∧ 0 ≤ (from_idx idx).z ∧ (from_idx idx).z < Chunk.SIZE)
        ∧ (from_idx idx).as_idx = idx) := by
  have hS : Chunk.SIZE = 32 := rfl
  constructor
  · intro x y z hx0 hx1 hy0 hy1 hz0 hz1
    rw [hS] at *
    have hidx := as_idx_eq_of_bounds hx0 hx1 hy0 hy1 hz0 hz1
    refine ⟨by rw [hidx]; omega, by rw [hidx]; omega, ?_⟩
    rw [hidx]
    simp only [from_idx, InnerChunkCoords.new, InnerChunkCoords.mk.injEq]
    refine ⟨?_, ?_, ?_⟩ <;> omega
  · intro idx hidx
    refine ⟨⟨?_, ?_, ?_, ?_, ?_, ?_⟩, ?_⟩ <;>
      simp only [from_idx, InnerChunkCoords.new, hS]
    · omega
    · omega
    · omega
    · omega
    · omega
    · omega
    · show (InnerChunkCoords.new ((idx % 32 : Nat) : Int)
          ((idx / 32 % 32 : Nat) : Int) ((idx / (32 * 32) : Nat) : Int)).as_idx
          = idx
      rw [as_idx_natCast _ _ _ (by omega) (by omega) (by omega)]
      omega

/-- Witness for `as_idx_from_idx_bijection` at (x, y, z) = (5, 6, 7) and
idx = 12345. -/
theorem as_idx_from_idx_bijection_witness :
    ((0 : Int) ≤ 5 ∧ (5 : Int) < Chunk.SIZE ∧ (0 : Int) ≤ 6
      ∧ (6 : Int) < Chunk.SIZE ∧ (0 : Int) ≤ 7 ∧ (7 : Int) < Chunk.SIZE
      ∧ (((InnerChunkCoords.new 5 6 7).as_idx : Int)
          = 7 * Chunk.SIZE * Chunk.SIZE + 6 * Chunk.SIZE + 5
        ∧ (InnerChunkCoords.new 5 6 7).as_idx < 32768
        ∧ from_idx (InnerChunkCoords.new 5 6 7).as_idx
            = InnerChunkCoords.new 5 6 7))
    ∧ ((12345 : Nat) < 32768
      ∧ ((0 ≤ (from_idx 12345).x ∧ (from_idx 12345).x < Chunk.SIZE
          ∧ 0 ≤ (from_idx 12345).y ∧ (from_idx 12345).y < Chunk.SIZE
          ∧ 0 ≤ (from_idx 12345).z ∧ (from_idx 12345).z < Chunk.SIZE)
          ∧ (from_idx 12345).as_idx = 12345)) :=
  ⟨⟨by decide, by decide, by decide, by decide, by decide, by decide,
      as_idx_from_idx_bijection.1 5 6 7 (by decide) (by decide) (by decide)
        (by decide) (by decide) (by decide)⟩,
    by decide,
    as_idx_from_idx_bijection.2 12345 (by decide)⟩

/-! ### Fold machinery

The source fills the visibility map and the model constructor with
`for z { for y { for x } }` loops.  The lemmas here flatten such nested
folds into a single fold over the z-major list of cells, and show that a
fold whose every step writes one distinct key of a map leaves each key
with exactly its own step's value. -/

theorem foldl_flatMap_eq {α β σ : Type} (g : α → List β) (f : σ → β → σ) :
    ∀ (L : List α) (init : σ),
      (L.flatMap g).foldl f init
        = L.foldl (fun s a => (g a).foldl f s) init
  | [], _ => rfl
  | a :: t, init => by
    rw [List.flatMap_cons, List.foldl_append, List.foldl_cons]
    exact foldl_flatMap_eq g f t _

theorem foldl_write_untouched {α β : Type} (key : α → Nat)
    (g : α → β → β) (step : α → (Nat → β) → Nat → β)
    (hstep : ∀ a m k, step a m k = if k = key a then g a (m (key a)) else m k) :
    ∀ (L : List α) (m : Nat → β) (k : Nat), (∀ a ∈ L, key a ≠ k) →
      (L.foldl (fun m a => step a m) m) k = m k
  | [], _, _, _ => rfl
  | b :: t, m, k, h => by
    rw [List.foldl_cons,
      foldl_write_untouched key g step hstep t _ k
        (fun a ha => h a (List.mem_cons_of_mem b ha)),
      hstep]
    exact if_neg (fun hk => h b (List.mem_cons_self b t) hk.symm)

theorem foldl_write_local {α β : Type} (key : α → Nat)
    (g : α → β → β) (step : α → (Nat → β) → Nat → β)
    (hstep : ∀ a m k, step a m k = if k = key a then g a (m (key a)) else m k) :
    ∀ (L : List α) (m : Nat → β), (L.map key).Nodup →
      ∀ a ∈ L, (L.foldl (fun m a => step a m) m) (key a) = g a (m (key a))
  | [], _, _, a, ha => absurd ha (List.not_mem_nil a)
  | b :: t, m, hnd, a, ha => by
    rw [List.map_cons, List.nodup_cons] at hnd
    rw [List.foldl_cons]
    rcases List.mem_cons.mp ha with rfl | hat
    · rw [foldl_write_untouched key g step hstep t _ (key a)
          (fun c hc hck => hnd.1 (hck ▸ List.mem_map_of_mem key hc)),
        hstep, if_pos rfl]
    · rw [foldl_write_local key g step hstep t _ hnd.2 a hat]
      congr 1
      rw [hstep,
        if_neg (fun h : key a = key b =>
          hnd.1 (h ▸ List.mem_map_of_mem key hat))]

/-- The z-major iteration order of the `for z { for y { for x } }` loops,
as a list of (x, y, z) triples. -/
def cellList : List (Int × Int × Int) :=
  (List.range 32).flatMap (fun (zn : Nat) =>
    (List.range 32).flatMap (fun (yn : Nat) =>
      (List.range 32).map (fun (xn : Nat) =>
        (((xn : Nat) : Int), ((yn : Nat) : Int), ((zn : Nat) : Int)))))

/-- The flat index written by the loop iteration at cell `t`. -/
def cellKey (t : Int × Int × Int) : Nat :=
  (InnerChunkCoords.new t.1 t.2.1 t.2.2).as_idx

/-- The row value a loop iteration of `generate_visibility_map` leaves in
its own cell, as a function of the row's previous value. -/
def cellUpdate (request : MeshChunkRequest) (t : Int × Int × Int)
    (cell : List Bool) : List Bool :=
  match request.requested_chunk.get_block
      (InnerChunkCoords.new t.1 t.2.1 t.2.2) with
  | none => cell
  | some _ => cellBody request t.1 t.2.1 t.2.2 cell

theorem visitCell_write (request : MeshChunkRequest) :
    ∀ (t : Int × Int × Int) (m : FaceVisibilityMap) (k : Nat),
      visitCell request t.1 t.2.1 t.2.2 m k
        = if k = cellKey t then cellUpdate request t (m (cellKey t)) else m k := by
  intro t m k
  unfold visitCell cellUpdate cellKey
  cases request.requested_chunk.get_block (InnerChunkCoords.new t.1 t.2.1 t.2.2) with
  | none =>
    by_cases hk : k = (InnerChunkCoords.new t.1 t.2.1 t.2.2).as_idx
    · subst hk; simp
    · simp [hk]
  | some b =>
    by_cases hk : k = (InnerChunkCoords.new t.1 t.2.1 t.2.2).as_idx
    · subst hk; simp
    · simp [hk]

theorem generate_eq_foldl_cellList (request : MeshChunkRequest) :
    generate_visibility_map request
      = cellList.foldl (fun m t => visitCell request t.1 t.2.1 t.2.2 m)
          (fun _ => List.replicate 6 false) := by
  unfold generate_visibility_map cellList
  simp only [foldl_flatMap_eq, List.foldl_map]

theorem range_flatMap_mul (a b : Nat) :
    List.range (a * b)
      = (List.range a).flatMap (fun i => (List.range b).map (fun j => i * b + j)) := by
  induction a with
  | zero => simp
  | succ n ih =>
    rw [Nat.succ_mul, List.range_add, ih, List.range_succ, List.flatMap_append]
    simp

theorem flatMap_congr_mem {α β : Type} {L : List α} {f g : α → List β}
    (h : ∀ a ∈ L, f a = g a) : L.flatMap f = L.flatMap g := by
  induction L with
  | nil => rfl
  | cons a t ih =>
    rw [List.flatMap_cons, List.flatMap_cons,
      h a (List.mem_cons_self a t),
      ih (fun c hc => h c (List.mem_cons_of_mem a hc))]

/-- The keys written by the z-major loop are exactly 0, 1, …, 32767 in
order (the loop fills the flat array front to back). -/
theorem cellList_map_cellKey : cellList.map cellKey = List.range 32768 := by
  have h1 : (32768 : Nat) = 32 * 1024 := by norm_num
  have h2 : (1024 : Nat) = 32 * 32 := by norm_num
  rw [cellList, List.map_flatMap, h1, range_flatMap_mul]
  apply flatMap_congr_mem
  intro zn hzn
  rw [List.map_flatMap, h2, range_flatMap_mul, List.map_flatMap]
  apply flatMap_congr_mem
  intro yn hyn
  rw [List.map_map, List.map_map]
  apply List.map_congr_left
  intro xn hxn
  rw [List.mem_range] at hzn hyn hxn
  show (InnerChunkCoords.new ((xn : Nat) : Int) ((yn : Nat) : Int)
      ((zn : Nat) : Int)).as_idx = zn * (32 * 32) + (yn * 32 + xn)
  rw [as_idx_natCast _ _ _ hxn hyn hzn]
  ring

theorem cellList_keys_nodup : (cellList.map cellKey).Nodup := by
  rw [cellList_map_cellKey]; exact List.nodup_range 32768

theorem mem_cellList {x y z : Int} (hx0 : 0 ≤ x) (hx1 : x < 32)
    (hy0 : 0 ≤ y) (hy1 : y < 32) (hz0 : 0 ≤ z) (hz1 : z < 32) :
    (x, y, z) ∈ cellList := by
  unfold cellList
  simp only [List.mem_flatMap, List.mem_map, List.mem_range]
  refine ⟨z.toNat, by omega, y.toNat, by omega, x.toNat, by omega, ?_⟩
  simp only [Prod.mk.injEq]
  omega

/-- Bridge: the visibility map's row at the flat index of an in-bounds
cell is the loop body's verdict for that cell (every iteration writes
only its own row, rows are written exactly once, all-false start). -/
theorem generate_visibility_map_row (request : MeshChunkRequest)
    {x y z : Int} (hx0 : 0 ≤ x) (hx1 : x < 32) (hy0 : 0 ≤ y) (hy1 : y < 32)
    (hz0 : 0 ≤ z) (hz1 : z < 32) :
    generate_visibility_map request ((InnerChunkCoords.new x y z).as_idx)
      = cellUpdate request (x, y, z) (List.replicate 6 false) := by
  rw [generate_eq_foldl_cellList]
  exact foldl_write_local cellKey (cellUpdate request)
    (fun t m => visitCell request t.1 t.2.1 t.2.2 m)
    (visitCell_write request) cellList _ cellList_keys_nodup
    (x, y, z) (mem_cellList hx0 hx1 hy0 hy1 hz0 hz1)

/-! ### The per-direction visibility verdicts -/

/-- Conditionally set position `i` of a boolean row. -/
def condSet (b : Bool) (i : Nat) (cell : List Bool) : List Bool :=
  if b then cell.set i true else cell

/-- The boolean verdict of the `// PosX` block: the resolved +X neighbor
cell is empty (and, at the boundary, the +X snapshot is present). -/
def flagPosX (request : MeshChunkRequest) (x y z : Int) : Bool :=
  if x = Chunk.SIZE - 1 then
    match request.pos_x_adj with
    | some adjacents =>
      match adjacents.get_block (InnerChunkCoords.new 0 y z) with
      | none => true
      | some _ => false
    | none => false
  else
    match request.requested_chunk.get_block (InnerChunkCoords.new (x + 1) y z) with
    | none => true
    | some _ => false

/-- The boolean verdict of the `// NegX` block. -/
def flagNegX (request : MeshChunkRequest) (x y z : Int) : Bool :=
  if x = 0 then
    match request.neg_x_adj with
    | some adjacents =>
      match adjacents.get_block (InnerChunkCoords.new (Chunk.SIZE - 1) y z) with
      | none => true
      | some _ => false
    | none => false
  else
    match request.requested_chunk.get_block (InnerChunkCoords.new (x - 1) y z) with
    | none => true
    | some _ => false

/-- The boolean verdict of the `// PosY` block. -/
def flagPosY (request : MeshChunkRequest) (x y z : Int) : Bool :=
  if y = Chunk.SIZE - 1 then
    match request.pos_y_adj with
    | some adjacents =>
      match adjacents.get_block (InnerChunkCoords.new x 0 z) with
      | none => true
      | some _ => false
    | none => false
  else
    match request.requested_chunk.get_block (InnerChunkCoords.new x (y + 1) z) with
    | none => true
    | some _ => false

/-- The boolean verdict of the `// NegY` block. -/
def flagNegY (request : MeshChunkRequest) (x y z : Int) : Bool :=
  if y = 0 then
    match request.neg_y_adj with
    | some adjacents =>
      match adjacents.get_block (InnerChunkCoords.new x (Chunk.SIZE - 1) z) with
      | none => true
      | some _ => false
    | none => false
  else
    match request.requested_chunk.get_block (InnerChunkCoords.new x (y - 1) z) with
    | none => true
    | some _ => false

/-- The boolean verdict of the `// PosZ` block. -/
def flagPosZ (request : MeshChunkRequest) (x y z : Int) : Bool :=
  if z = Chunk.SIZE - 1 then
    match request.pos_z_adj with
    | some adjacents =>
      match adjacents.get_block (InnerChunkCoords.new x y 0) with
      | none => true
      | some _ => false
    | none => false
  else
    match request.requested_chunk.get_block (InnerChunkCoords.new x y (z + 1)) with
    | none => true
    | some _ => false

/-- The boolean verdict of the `// NegZ` block. -/
def flagNegZ (request : MeshChunkRequest) (x y z : Int) : Bool :=
  if z = 0 then
    match request.neg_z_adj with
    | some adjacents =>
      match adjacents.get_block (InnerChunkCoords.new x y (Chunk.SIZE - 1)) with
      | none => true
      | some _ => false
    | none => false
  else
    match request.requested_chunk.get_block (InnerChunkCoords.new x y (z - 1)) with
    | none => true
    | some _ => false

theorem visPosX_eq (request : MeshChunkRequest) (x y z : Int) (cell : List Bool) :
    visPosX request x y z cell
      = condSet (flagPosX request x y z) FaceDirection.PosX.toIdx cell := by
  unfold visPosX flagPosX condSet
  by_cases hx : x = Chunk.SIZE - 1
  · rw [if_pos hx, if_pos hx]
    cases request.pos_x_adj with
    | none => rfl
    | some adjacents =>
      dsimp only
      cases adjacents.get_block (InnerChunkCoords.new 0 y z) <;> rfl
  · rw [if_neg hx, if_neg hx]
    cases request.requested_chunk.get_block (InnerChunkCoords.new (x + 1) y z) <;> rfl

theorem visNegX_eq (request : MeshChunkRequest) (x y z : Int) (cell : List Bool) :
    visNegX request x y z cell
      = condSet (flagNegX request x y z) FaceDirection.NegX.toIdx cell := by
  unfold visNegX flagNegX condSet
  by_cases hx : x = 0
  · rw [if_pos hx, if_pos hx]
    cases request.neg_x_adj with
    | none => rfl
    | some adjacents =>
      dsimp only
      cases adjacents.get_block (InnerChunkCoords.new (Chunk.SIZE - 1) y z) <;> rfl
  · rw [if_neg hx, if_neg hx]
    cases request.requested_chunk.get_block (InnerChunkCoords.new (x - 1) y z) <;> rfl

theorem visPosY_eq (request : MeshChunkRequest) (x y z : Int) (cell : List Bool) :
    visPosY request x y z cell
      = condSet (flagPosY request x y z) FaceDirection.PosY.toIdx cell := by
  unfold visPosY flagPosY condSet
  by_cases hy : y = Chunk.SIZE - 1
  · rw [if_pos hy, if_pos hy]
    cases request.pos_y_adj with
    | none => rfl
    | some adjacents =>
      dsimp only
      cases adjacents.get_block (InnerChunkCoords.new x 0 z) <;> rfl
  · rw [if_neg hy, if_neg hy]
    cases request.requested_chunk.get_block (InnerChunkCoords.new x (y + 1) z) <;> rfl

theorem visNegY_eq (request : MeshChunkRequest) (x y z : Int) (cell : List Bool) :
    visNegY request x y z cell
      = condSet (flagNegY request x y z) FaceDirection.NegY.toIdx cell := by
  unfold visNegY flagNegY condSet
  by_cases hy : y = 0
  · rw [if_pos hy, if_pos hy]
    cases request.neg_y_adj with
    | none => rfl
    | some adjacents =>
      dsimp only
      cases adjacents.get_block (InnerChunkCoords.new x (Chunk.SIZE - 1) z) <;> rfl
  · rw [if_neg hy, if_neg hy]
    cases request.requested_chunk.get_block (InnerChunkCoords.new x (y - 1) z) <;> rfl

theorem visPosZ_eq (request : MeshChunkRequest) (x y z : Int) (cell : List Bool) :
    visPosZ request x y z cell
      = condSet (flagPosZ request x y z) FaceDirection.PosZ.toIdx cell := by
  unfold visPosZ flagPosZ condSet
  by_cases hz : z = Chunk.SIZE - 1
  · rw [if_pos hz, if_pos hz]
    cases request.pos_z_adj with
    | none => rfl
    | some adjacents =>
      dsimp only
      cases adjacents.get_block (InnerChunkCoords.new x y 0) <;> rfl
  · rw [if_neg hz, if_neg hz]
    cases request.requested_chunk.get_block (InnerChunkCoords.new x y (z + 1)) <;> rfl

theorem visNegZ_eq (request : MeshChunkRequest) (x y z : Int) (cell : List Bool) :
    visNegZ request x y z cell
      = condSet (flagNegZ request x y z) FaceDirection.NegZ.toIdx cell := by
  unfold visNegZ flagNegZ condSet
  by_cases hz : z = 0
  · rw [if_pos hz, if_pos hz]
    cases request.neg_z_adj with
    | none => rfl
    | some adjacents =>
      dsimp only
      cases adjacents.get_block (InnerChunkCoords.new x y (Chunk.SIZE - 1)) <;> rfl
  · rw [if_neg hz, if_neg hz]
    cases request.requested_chunk.get_block (InnerChunkCoords.new x y (z - 1)) <;> rfl

theorem condSet_chain (b0 b1 b2 b3 b4 b5 : Bool) :
    condSet b5 5 (condSet b4 4 (condSet b3 3 (condSet b2 2
        (condSet b1 1 (condSet b0 0 (List.replicate 6 false))))))
      = [b0, b1, b2, b3, b4, b5] := by
  cases b0 <;> cases b1 <;> cases b2 <;> cases b3 <;> cases b4 <;> cases b5 <;> rfl

/-- The row a loop iteration computes for an occupied cell, listed per
direction: slot `d` holds the verdict of the source's `// d` block. -/
theorem cellBody_eq_list (request : MeshChunkRequest) (x y z : Int) :
    cellBody request x y z (List.replicate 6 false)
      = [flagPosX request x y z, flagNegX request x y z,
         flagPosY request x y z, flagNegY request x y z,
         flagPosZ request x y z, flagNegZ request x y z] := by
  show visNegZ request x y z (visPosZ request x y z (visNegY request x y z
      (visPosY request x y z (visNegX request x y z
        (visPosX request x y z (List.replicate 6 false))))))
    = _
  rw [visPosX_eq, visNegX_eq, visPosY_eq, visNegY_eq, visPosZ_eq, visNegZ_eq]
  exact condSet_chain _ _ _ _ _ _

/-! ### Claim C1: visibility versus the resolved neighbor cell -/

/-- The neighbor chunk snapshot a request carries for a direction. -/
def adjOf (request : MeshChunkRequest) : FaceDirection → Option Chunk
  | .PosX => request.pos_x_adj
  | .NegX => request.neg_x_adj
  | .PosY => request.pos_y_adj
  | .NegY => request.neg_y_adj
  | .PosZ => request.pos_z_adj
  | .NegZ => request.neg_z_adj

/-- The coordinate of `q` on the axis relevant to `d` (using the
source's axis predicates). -/
def axisValue (d : FaceDirection) (q : InnerChunkCoords) : Int :=
  if d.is_x then q.x else if d.is_y then q.y else q.z

/-- The offset position with the crossing axis replaced by the wrapped
coordinate: 0 for a positive direction, SIZE−1 for a negative one. -/
def wrapCoord (d : FaceDirection) (q : InnerChunkCoords) : InnerChunkCoords :=
  let w : Int := if d.is_positive then 0 else Chunk.SIZE - 1
  if d.is_x then ⟨w, q.y, q.z⟩
  else if d.is_y then ⟨q.x, w, q.z⟩
  else ⟨q.x, q.y, w⟩

/-- Modelled from the claim wording (spec §4.4), for the refinement
claim C1: the resolved neighbor cell of position `p` in direction `d`.
The offset position is `p` plus the direction's unit offset; if it
stays within [0, SIZE) on the relevant axis the cell is looked up in
the same chunk (`some cell`), otherwise in the direction's neighbor
chunk snapshot at the wrapped coordinate — absent snapshot gives
`none` (no resolved cell). -/
def resolvedNeighbor (request : MeshChunkRequest) (p : InnerChunkCoords)
    (d : FaceDirection) : Option (Option BlockId) :=
  let q := p.add (InnerChunkCoords.ofFaceDirection d)
  if 0 ≤ axisValue d q ∧ axisValue d q < Chunk.SIZE then
    some (request.requested_chunk.get_block q)
  else
    match adjOf request d with
    | none => none
    | some adjacents => some (adjacents.get_block (wrapCoord d q))

theorem resolvedNeighbor_PosX (request : MeshChunkRequest) (x y z : Int) :
    resolvedNeighbor request (InnerChunkCoords.new x y z) .PosX
      = if 0 ≤ x + 1 ∧ x + 1 < Chunk.SIZE then
          some (request.requested_chunk.get_block (InnerChunkCoords.new (x + 1) y z))
        else
          match request.pos_x_adj with
          | none => none
          | some adjacents =>
            some (adjacents.get_block (InnerChunkCoords.new 0 y z)) := by
  simp [resolvedNeighbor, axisValue, wrapCoord, adjOf, InnerChunkCoords.add,
    InnerChunkCoords.ofFaceDirection, FaceDirection.is_x, FaceDirection.is_y,
    FaceDirection.is_positive, InnerChunkCoords.new]

theorem resolvedNeighbor_NegX (request : MeshChunkRequest) (x y z : Int) :
    resolvedNeighbor request (InnerChunkCoords.new x y z) .NegX
      = if 0 ≤ x - 1 ∧ x - 1 < Chunk.SIZE then
          some (request.requested_chunk.get_block (InnerChunkCoords.new (x - 1) y z))
        else
          match request.neg_x_adj with
          | none => none
          | some adjacents =>
            some (adjacents.get_block (InnerChunkCoords.new (Chunk.SIZE - 1) y z)) := by
  simp [resolvedNeighbor, axisValue, wrapCoord, adjOf, InnerChunkCoords.add,
    InnerChunkCoords.ofFaceDirection, FaceDirection.is_x, FaceDirection.is_y,
    FaceDirection.is_positive, InnerChunkCoords.new, Int.sub_eq_add_neg]

theorem resolvedNeighbor_PosY (request : MeshChunkRequest) (x y z : Int) :
    resolvedNeighbor request (InnerChunkCoords.new x y z) .PosY
      = if 0 ≤ y + 1 ∧ y + 1 < Chunk.SIZE then
          some (request.requested_chunk.get_block (InnerChunkCoords.new x (y + 1) z))
        else
          match request.pos_y_adj with
          | none => none
          | some adjacents =>
            some (adjacents.get_block (InnerChunkCoords.new x 0 z)) := by
  simp [resolvedNeighbor, axisValue, wrapCoord, adjOf, InnerChunkCoords.add,
    InnerChunkCoords.ofFaceDirection, FaceDirection.is_x, FaceDirection.is_y,
    FaceDirection.is_positive, InnerChunkCoords.new]

theorem resolvedNeighbor_NegY (request : MeshChunkRequest) (x y z : Int) :
    resolvedNeighbor request (InnerChunkCoords.new x y z) .NegY
      = if 0 ≤ y - 1 ∧ y - 1 < Chunk.SIZE then
          some (request.requested_chunk.get_block (InnerChunkCoords.new x (y - 1) z))
        else
          match request.neg_y_adj with
          | none => none
          | some adjacents =>
            some (adjacents.get_block (InnerChunkCoords.new x (Chunk.SIZE - 1) z)) := by
  simp [resolvedNeighbor, axisValue, wrapCoord, adjOf, InnerChunkCoords.add,
    InnerChunkCoords.ofFaceDirection, FaceDirection.is_x, FaceDirection.is_y,
    FaceDirection.is_positive, InnerChunkCoords.new, Int.sub_eq_add_neg]

theorem resolvedNeighbor_PosZ (request : MeshChunkRequest) (x y z : Int) :
    resolvedNeighbor request (InnerChunkCoords.new x y z) .PosZ
      = if 0 ≤ z + 1 ∧ z + 1 < Chunk.SIZE then
          some (request.requested_chunk.get_block (InnerChunkCoords.new x y (z + 1)))
        else
          match request.pos_z_adj with
          | none => none
          | some adjacents =>
            some (adjacents.get_block (InnerChunkCoords.new x y 0)) := by
  simp [resolvedNeighbor, axisValue, wrapCoord, adjOf, InnerChunkCoords.add,
    InnerChunkCoords.ofFaceDirection, FaceDirection.is_x, FaceDirection.is_y,
    FaceDirection.is_positive, InnerChunkCoords.new]

theorem resolvedNeighbor_NegZ (request : MeshChunkRequest) (x y z : Int) :
    resolvedNeighbor request (InnerChunkCoords.new x y z) .NegZ
      = if 0 ≤ z - 1 ∧ z - 1 < Chunk.SIZE then
          some (request.requested_chunk.get_block (InnerChunkCoords.new x y (z - 1)))
        else
          match request.neg_z_adj with
          | none => none
          | some adjacents =>
            some (adjacents.get_block (InnerChunkCoords.new x y (Chunk.SIZE - 1))) := by
  simp [resolvedNeighbor, axisValue, wrapCoord, adjOf, InnerChunkCoords.add,
    InnerChunkCoords.ofFaceDirection, FaceDirection.is_x, FaceDirection.is_y,
    FaceDirection.is_positive, InnerChunkCoords.new, Int.sub_eq_add_neg]

theorem flag_match_iff {cell : Option BlockId} :
    ((match cell with | none => true | some _ => false) = true) ↔ cell = none := by
  cases cell <;> simp

/-- C1: for every request and every in-chunk position holding a block,
the generated visibility map marks a face direction visible iff the
resolved neighbor cell (same chunk when the offset stays within
[0, SIZE) on the relevant axis, neighbor snapshot at the wrapped
coordinate when it crosses the boundary, unresolved when that snapshot
is absent) holds no block. -/
theorem visibility_iff_resolved_empty (request : MeshChunkRequest)
    (x y z : Int) (hx0 : 0 ≤ x) (hx1 : x < Chunk.SIZE) (hy0 : 0 ≤ y)
    (hy1 : y < Chunk.SIZE) (hz0 : 0 ≤ z) (hz1 : z < Chunk.SIZE)
    (hblock : request.requested_chunk.get_block (InnerChunkCoords.new x y z) ≠ none)
    (d : FaceDirection) :
    ((generate_visibility_map request ((InnerChunkCoords.new x y z).as_idx)).getD
        d.toIdx false = true)
      ↔ resolvedNeighbor request (InnerChunkCoords.new x y z) d = some none := by
  have hS : Chunk.SIZE = 32 := rfl
  rw [generate_visibility_map_row request hx0 (hS ▸ hx1) hy0 (hS ▸ hy1) hz0
    (hS ▸ hz1)]
  unfold cellUpdate
  dsimp only
  cases hb : request.requested_chunk.get_block (InnerChunkCoords.new x y z) with
  | none => exact absurd hb hblock
  | some b =>
    dsimp only
    rw [cellBody_eq_list]
    cases d with
    | PosX =>
      show flagPosX request x y z = true ↔ _
      rw [resolvedNeighbor_PosX]
      unfold flagPosX
      by_cases hx : x = Chunk.SIZE - 1
      · rw [if_pos hx, if_neg (by rw [hS] at hx ⊢; omega)]
        cases request.pos_x_adj with
        | none => simp
        | some adjacents => dsimp only; rw [flag_match_iff]; simp
      · rw [if_neg hx,
          if_pos ⟨by omega, by rw [hS] at hx1 ⊢; omega⟩]
        rw [flag_match_iff]; simp
    | NegX =>
      show flagNegX request x y z = true ↔ _
      rw [resolvedNeighbor_NegX]
      unfold flagNegX
      by_cases hx : x = 0
      · rw [if_pos hx, if_neg (by omega)]
        cases request.neg_x_adj with
        | none => simp
        | some adjacents => dsimp only; rw [flag_match_iff]; simp
      · rw [if_neg hx,
          if_pos ⟨by omega, by rw [hS] at hx1 ⊢; omega⟩]
        rw [flag_match_iff]; simp
    | PosY =>
      show flagPosY request x y z = true ↔ _
      rw [resolvedNeighbor_PosY]
      unfold flagPosY
      by_cases hy : y = Chunk.SIZE - 1
      · rw [if_pos hy, if_neg (by rw [hS] at hy ⊢; omega)]
        cases request.pos_y_adj with
        | none => simp
        | some adjacents => dsimp only; rw [flag_match_iff]; simp
      · rw [if_neg hy,
          if_pos ⟨by omega, by rw [hS] at hy1 ⊢; omega⟩]
        rw [flag_match_iff]; simp
    | NegY =>
      show flagNegY request x y z = true ↔ _
      rw [resolvedNeighbor_NegY]
      unfold flagNegY
      by_cases hy : y = 0
      · rw [if_pos hy, if_neg (by omega)]
        cases request.neg_y_adj with
        | none => simp
        | some adjacents => dsimp only; rw [flag_match_iff]; simp
      · rw [if_neg hy,
          if_pos ⟨by omega, by rw [hS] at hy1 ⊢; omega⟩]
        rw [flag_match_iff]; simp
    | PosZ =>
      show flagPosZ request x y z = true ↔ _
      rw [resolvedNeighbor_PosZ]
      unfold flagPosZ
      by_cases hz : z = Chunk.SIZE - 1
      · rw [if_pos hz, if_neg (by rw [hS] at hz ⊢; omega)]
        cases request.pos_z_adj with
        | none => simp
        | some adjacents => dsimp only; rw [flag_match_iff]; simp
      · rw [if_neg hz,
          if_pos ⟨by omega, by rw [hS] at hz1 ⊢; omega⟩]
        rw [flag_match_iff]; simp
    | NegZ =>
      show flagNegZ request x y z = true ↔ _
      rw [resolvedNeighbor_NegZ]
      unfold flagNegZ
      by_cases hz : z = 0
      · rw [if_pos hz, if_neg (by omega)]
        cases request.neg_z_adj with
        | none => simp
        | some adjacents => dsimp only; rw [flag_match_iff]; simp
      · rw [if_neg hz,
          if_pos ⟨by omega, by rw [hS] at hz1 ⊢; omega⟩]
        rw [flag_match_iff]; simp

/-! ### Concrete requests for witnesses and scenarios -/

/-- Chunk holding a single block (id 5) at (x, y, z) = (31, 0, 0),
flat index 31. -/
def boundaryChunk : Chunk := ⟨fun i => if i = 31 then some 5 else none⟩

/-- Request with a block at x = SIZE−1, the +X neighbor snapshot present
and empty, and all other snapshots absent. -/
def rBoundary : MeshChunkRequest :=
  ⟨ChunkCoords.new 0 0 0, boundaryChunk, some Chunk.new, none, none, none,
    none, none⟩

/-- Witness for `visibility_iff_resolved_empty`: the boundary-stitching
instance — the block at (31, 0, 0) with an empty +X-adjacent snapshot,
checked in direction +X. -/
theorem visibility_iff_resolved_empty_witness :
    ((0 : Int) ≤ 31 ∧ (31 : Int) < Chunk.SIZE ∧ (0 : Int) ≤ 0
      ∧ (0 : Int) < Chunk.SIZE ∧ (0 : Int) ≤ 0 ∧ (0 : Int) < Chunk.SIZE
      ∧ rBoundary.requested_chunk.get_block (InnerChunkCoords.new 31 0 0) ≠ none)
    ∧ (((generate_visibility_map rBoundary
          ((InnerChunkCoords.new 31 0 0).as_idx)).getD
            FaceDirection.PosX.toIdx false = true)
        ↔ resolvedNeighbor rBoundary (InnerChunkCoords.new 31 0 0) .PosX
            = some none) :=
  ⟨⟨by decide, by decide, by decide, by decide, by decide, by decide,
      by decide⟩,
    visibility_iff_resolved_empty rBoundary 31 0 0 (by decide) (by decide)
      (by decide) (by decide) (by decide) (by decide) (by decide) .PosX⟩

/-- Chunk holding a single block (id 0) at (0, 0, 0), flat index 0. -/
def singleBlockChunk : Chunk := ⟨fun i => if i = 0 then some 0 else none⟩

/-- Scenario request: a single block at InnerChunkCoords(0, 0, 0) in an
otherwise empty chunk, with all six neighbor snapshots absent. -/
def rSingle : MeshChunkRequest :=
  ⟨ChunkCoords.new 0 0 0, singleBlockChunk, none, none, none, none, none,
    none⟩

/-- C3 counterexample: in the single-block scenario the −X face of the
block at (0, 0, 0) is not marked visible (x = 0 crosses the chunk
boundary and the −X snapshot is absent), so the visibility map does not
mark all six faces visible. -/
theorem rSingle_negX_not_visible :
    (generate_visibility_map rSingle ((InnerChunkCoords.new 0 0 0).as_idx)).getD
      FaceDirection.NegX.toIdx false = false := by
  rw [generate_visibility_map_row rSingle (by decide) (by decide) (by decide)
    (by decide) (by decide) (by decide)]
  decide

/-- C3 amended: in the single-block scenario the visibility row of the
block at (0, 0, 0), listed as [+X, −X, +Y, −Y, +Z, −Z], marks exactly
the three positive (in-chunk) directions visible; the three negative
directions cross the boundary toward absent snapshots and stay false. -/
theorem rSingle_visibility_row :
    generate_visibility_map rSingle ((InnerChunkCoords.new 0 0 0).as_idx)
      = [true, false, true, false, true, false] := by
  rw [generate_visibility_map_row rSingle (by decide) (by decide) (by decide)
    (by decide) (by decide) (by decide)]
  decide

/-! ### Characterization of the geometry emission -/

/-- The six-index triangle block of the k-th emitted quad (u16 wrap):
(0,1,2) and (2,1,3) relative to its four vertices, based at 4k. -/
def quadIndices (k : Nat) : List Nat :=
  [(4 * k) % 2 ^ 16, (4 * k + 1) % 2 ^ 16, (4 * k + 2) % 2 ^ 16,
   (4 * k + 2) % 2 ^ 16, (4 * k + 1) % 2 ^ 16, (4 * k + 3) % 2 ^ 16]

/-- The index buffer contents after n emitted quads. -/
def canonicalIndices (n : Nat) : List Nat :=
  (List.range n).flatMap quadIndices

/-- The four vertices `add_block_face` appends for a quad: the canonical
+Y-facing unit-quad corners, rotated to the face direction, translated
to the block center, all carrying `color`. -/
def quadVerticesDir (coords : InnerChunkCoords) (face_dir : FaceDirection)
    (color : Color) : List Vertex :=
  ([⟨-(1/2 : Rat), 1/2, -(1/2 : Rat)⟩, ⟨(1/2 : Rat), 1/2, -(1/2 : Rat)⟩,
    ⟨-(1/2 : Rat), 1/2, (1/2 : Rat)⟩, ⟨(1/2 : Rat), 1/2, (1/2 : Rat)⟩] :
      List Vec3).map
    (fun p => ⟨rotatePoint face_dir p + coords.as_block_center, color⟩)

theorem canonicalIndices_succ (n : Nat) :
    canonicalIndices (n + 1) = canonicalIndices n ++ quadIndices n := by
  unfold canonicalIndices
  rw [List.range_succ, List.flatMap_append, List.flatMap_cons,
    List.flatMap_nil, List.append_nil]

theorem canonicalIndices_getLast (n : Nat) :
    (canonicalIndices (n + 1)).getLast? = some ((4 * n + 3) % 2 ^ 16) := by
  rw [canonicalIndices_succ, List.getLast?_append]
  rfl

/-- Effect of `add_block_face` on a constructor in canonical state:
four vertices appended, index buffer advanced to the next quad block,
transform untouched. -/
theorem add_block_face_canonical (vs : List Vertex) (k : Nat) (tr : Transform)
    (coords : InnerChunkCoords) (face_dir : FaceDirection) (color : Color) :
    (ModelConstructor.mk vs (canonicalIndices k) tr).add_block_face coords
        face_dir color
      = ⟨vs ++ quadVerticesDir coords face_dir color,
         canonicalIndices (k + 1), tr⟩ := by
  have hp : (2 : Nat) ^ 16 = 65536 := by norm_num
  cases k with
  | zero =>
    unfold ModelConstructor.add_block_face
    dsimp only
    have h0 : (canonicalIndices 0).getLast? = none := rfl
    rw [h0]
    dsimp only
    rw [ModelConstructor.mk.injEq]
    refine ⟨rfl, ?_, rfl⟩
    show canonicalIndices 0 ++ _ = canonicalIndices 1
    decide
  | succ m =>
    unfold ModelConstructor.add_block_face
    dsimp only
    rw [canonicalIndices_getLast m]
    dsimp only
    rw [ModelConstructor.mk.injEq]
    refine ⟨rfl, ?_, rfl⟩
    rw [canonicalIndices_succ (m + 1)]
    congr 1
    unfold quadIndices
    simp only [List.cons.injEq]
    rw [hp]
    refine ⟨by omega, by omega, by omega, by omega, by omega, by omega,
      trivial⟩

/-- One face-emission operation of `mesh_chunk`: the cell (x, y, z) and
the face index passed to `add_block_face`. -/
abbrev EmitOp := (Int × Int × Int) × Nat

/-- The `add_block_face` call `mesh_chunk` makes for an operation:
coordinates from the cell, direction from the face index, checkerboard
color from (x + z). -/
def addOp (mc : ModelConstructor) (op : EmitOp) : ModelConstructor :=
  mc.add_block_face (InnerChunkCoords.new op.1.1 op.1.2.1 op.1.2.2)
    (FaceDirection.fromUsize op.2) (parityColor op.1.1 op.1.2.2)

/-- The four vertices an operation contributes. -/
def quadVerts (op : EmitOp) : List Vertex :=
  quadVerticesDir (InnerChunkCoords.new op.1.1 op.1.2.1 op.1.2.2)
    (FaceDirection.fromUsize op.2) (parityColor op.1.1 op.1.2.2)

/-- Folding emissions over a constructor in canonical state appends the
quads' vertices and extends the canonical index buffer. -/
theorem foldl_addOp_canonical :
    ∀ (ops : List EmitOp) (vs : List Vertex) (k : Nat) (tr : Transform),
      ops.foldl addOp ⟨vs, canonicalIndices k, tr⟩
        = ⟨vs ++ ops.flatMap quadVerts, canonicalIndices (k + ops.length), tr⟩
  | [], vs, k, tr => by simp
  | op :: rest, vs, k, tr => by
    rw [List.foldl_cons]
    have h1 : addOp ⟨vs, canonicalIndices k, tr⟩ op
        = ⟨vs ++ quadVerts op, canonicalIndices (k + 1), tr⟩ :=
      add_block_face_canonical vs k tr _ _ _
    rw [h1, foldl_addOp_canonical rest (vs ++ quadVerts op) (k + 1) tr,
      ModelConstructor.mk.injEq]
    refine ⟨?_, ?_, rfl⟩
    · rw [List.flatMap_cons, List.append_assoc]
    · rw [List.length_cons]
      exact congrArg canonicalIndices (by omega)

theorem foldl_ite_filter {α σ : Type} (p : α → Bool) (g : σ → α → σ) :
    ∀ (L : List α) (s : σ),
      L.foldl (fun s a => if p a then g s a else s) s
        = (L.filter p).foldl g s
  | [], _ => rfl
  | a :: t, s => by
    rw [List.foldl_cons, List.filter_cons]
    by_cases h : p a
    · rw [if_pos h, if_pos h, List.foldl_cons]
      exact foldl_ite_filter p g t _
    · rw [if_neg h, if_neg h]
      exact foldl_ite_filter p g t _

/-- The face indices the inner `for face in 0..6` loop of `mesh_chunk`
emits at cell (x, y, z): those marked visible in the row at the cell's
flat index. -/
def cellFaces (request : MeshChunkRequest) (x y z : Int) : List Nat :=
  (List.range 6).filter
    (fun face =>
      (generate_visibility_map request
          ((InnerChunkCoords.new x y z).as_idx)).getD face false)

/-- The emission operations of one cell: none when the cell holds no
block (the loop continues), otherwise one per visible face. -/
def cellOps (request : MeshChunkRequest) (t : Int × Int × Int) : List EmitOp :=
  match request.requested_chunk.get_block
      (InnerChunkCoords.new t.1 t.2.1 t.2.2) with
  | none => []
  | some _ => (cellFaces request t.1 t.2.1 t.2.2).map (fun face => (t, face))

/-- All emission operations of a request, in z-major loop order. -/
def facesList (request : MeshChunkRequest) : List EmitOp :=
  cellList.flatMap (cellOps request)

/-- The number of (occupied block, direction) pairs marked visible in
the visibility map — the number of faces `mesh_chunk` emits. -/
def visibleFaceCount (request : MeshChunkRequest) : Nat :=
  (facesList request).length

theorem mesh_chunk_eq_foldl_cellList (request : MeshChunkRequest) :
    mesh_chunk request
      = cellList.foldl
          (fun mc t =>
            meshCell request (generate_visibility_map request) t.1 t.2.1 t.2.2 mc)
          ⟨[], [], ⟨Quat.IDENTITY, request.requested_coords.as_translation⟩⟩ := by
  unfold mesh_chunk cellList
  simp only [foldl_flatMap_eq, List.foldl_map]
  rfl

theorem meshCell_eq_cellOps (request : MeshChunkRequest)
    (t : Int × Int × Int) (mc : ModelConstructor) :
    meshCell request (generate_visibility_map request) t.1 t.2.1 t.2.2 mc
      = (cellOps request t).foldl addOp mc := by
  unfold meshCell cellOps
  dsimp only
  cases request.requested_chunk.get_block
      (InnerChunkCoords.new t.1 t.2.1 t.2.2) with
  | none => rfl
  | some b =>
    dsimp only
    rw [foldl_ite_filter, List.foldl_map]
    rfl

/-- Characterization of `mesh_chunk`: the vertex buffer is the
concatenation of the emitted quads' vertices, the index buffer is the
canonical triangle pattern for as many quads, and the transform is the
identity rotation with the chunk's world translation. -/
theorem mesh_chunk_characterization (request : MeshChunkRequest) :
    mesh_chunk request
      = ⟨(facesList request).flatMap quadVerts,
         canonicalIndices (visibleFaceCount request),
         ⟨Quat.IDENTITY, request.requested_coords.as_translation⟩⟩ := by
  rw [mesh_chunk_eq_foldl_cellList]
  have hf : (fun (s : ModelConstructor) (a : Int × Int × Int) =>
        (cellOps request a).foldl addOp s)
      = (fun (mc : ModelConstructor) (t : Int × Int × Int) =>
        meshCell request (generate_visibility_map request) t.1 t.2.1 t.2.2 mc) := by
    funext s a
    exact (meshCell_eq_cellOps request a s).symm
  have h1 : (facesList request).foldl addOp
      (⟨[], [], ⟨Quat.IDENTITY, request.requested_coords.as_translation⟩⟩ :
        ModelConstructor)
      = cellList.foldl
          (fun mc t =>
            meshCell request (generate_visibility_map request) t.1 t.2.1 t.2.2 mc)
          ⟨[], [], ⟨Quat.IDENTITY, request.requested_coords.as_translation⟩⟩ := by
    unfold facesList
    rw [foldl_flatMap_eq, hf]
  rw [← h1]
  have h2 := foldl_addOp_canonical (facesList request) [] 0
    ⟨Quat.IDENTITY, request.requested_coords.as_translation⟩
  have h3 : canonicalIndices 0 = [] := rfl
  rw [h3] at h2
  rw [h2, List.nil_append, Nat.zero_add]
  rfl

theorem canonicalIndices_length (n : Nat) :
    (canonicalIndices n).length = n * 6 := by
  induction n with
  | zero => rfl
  | succ m ih =>
    rw [canonicalIndices_succ, List.length_append, ih]
    have h6 : (quadIndices m).length = 6 := rfl
    rw [h6]
    omega

theorem flatMap_quadVerts_length (ops : List EmitOp) :
    (ops.flatMap quadVerts).length = ops.length * 4 := by
  induction ops with
  | nil => rfl
  | cons op rest ih =>
    rw [List.flatMap_cons, List.length_append, ih]
    have h4 : (quadVerts op).length = 4 := rfl
    rw [h4, List.length_cons]
    omega

theorem mem_canonicalIndices_lt {n i : Nat} (h : i ∈ canonicalIndices n) :
    i < n * 4 := by
  unfold canonicalIndices at h
  rw [List.mem_flatMap] at h
  obtain ⟨k, hk, hi⟩ := h
  rw [List.mem_range] at hk
  unfold quadIndices at hi
  have hp : (2 : Nat) ^ 16 = 65536 := by norm_num
  rw [hp] at hi
  simp only [List.mem_cons, List.not_mem_nil, or_false] at hi
  have hle : i ≤ 4 * k + 3 := by
    rcases hi with h | h | h | h | h | h <;>
      (subst h; exact le_trans (Nat.mod_le _ _) (by omega))
  omega

/-- C2: the geometry of a meshed chunk has `visible_face_count * 6`
indices and `visible_face_count * 4` vertices, every index value is
strictly below the vertex count, and each emitted face contributes
exactly its 4 vertices and 6 indices, appended contiguously (the
buffers are precisely the concatenations of the per-face blocks). -/
theorem mesh_chunk_geometry_invariant (request : MeshChunkRequest) :
    (mesh_chunk request).indices.length = visibleFaceCount request * 6
    ∧ (mesh_chunk request).vertices.length = visibleFaceCount request * 4
    ∧ (mesh_chunk request).indices.all
        (fun i => decide (i < (mesh_chunk request).vertices.length)) = true
    ∧ (mesh_chunk request).vertices = (facesList request).flatMap quadVerts
    ∧ (mesh_chunk request).indices
        = canonicalIndices (visibleFaceCount request) := by
  rw [mesh_chunk_characterization]
  refine ⟨canonicalIndices_length _, flatMap_quadVerts_length _, ?_, rfl, rfl⟩
  rw [List.all_eq_true]
  intro i hi
  rw [decide_eq_true_eq, flatMap_quadVerts_length]
  exact mem_canonicalIndices_lt hi

/-- C7 amended: the index buffer is exactly the concatenation, over the
emitted quads k = 0, 1, …, of the six u16 values
(4k, 4k+1, 4k+2, 4k+2, 4k+1, 4k+3) mod 2^16 — each quad's two triangles
(0,1,2) and (2,1,3) relative to its four vertices, based one past the
previous quad's last index value (never restarting from zero while the
buffer stays within the 16-bit range); the sequence is not monotone
inside a quad, where it steps back from base+2 to base+1. -/
theorem mesh_chunk_indices_pattern (request : MeshChunkRequest) :
    (mesh_chunk request).indices
      = (List.range (visibleFaceCount request)).flatMap
          (fun k =>
            [(4 * k) % 2 ^ 16, (4 * k + 1) % 2 ^ 16, (4 * k + 2) % 2 ^ 16,
             (4 * k + 2) % 2 ^ 16, (4 * k + 1) % 2 ^ 16,
             (4 * k + 3) % 2 ^ 16]) := by
  rw [mesh_chunk_characterization]
  rfl

theorem mem_facesList_of {request : MeshChunkRequest} {t : Int × Int × Int}
    {face : Nat} {b : BlockId} (ht : t ∈ cellList)
    (hb : request.requested_chunk.get_block
      (InnerChunkCoords.new t.1 t.2.1 t.2.2) = some b)
    (hface : face ∈ cellFaces request t.1 t.2.1 t.2.2) :
    (t, face) ∈ facesList request := by
  unfold facesList
  rw [List.mem_flatMap]
  refine ⟨t, ht, ?_⟩
  unfold cellOps
  rw [hb]
  exact List.mem_map_of_mem _ hface

theorem mem_facesList_block {request : MeshChunkRequest} {op : EmitOp}
    (h : op ∈ facesList request) :
    ∃ b, request.requested_chunk.get_block
      (InnerChunkCoords.new op.1.1 op.1.2.1 op.1.2.2) = some b := by
  unfold facesList at h
  rw [List.mem_flatMap] at h
  obtain ⟨t, ht, hop⟩ := h
  unfold cellOps at hop
  cases hb : request.requested_chunk.get_block
      (InnerChunkCoords.new t.1 t.2.1 t.2.2) with
  | none => rw [hb] at hop; simp at hop
  | some b =>
    rw [hb] at hop
    dsimp only at hop
    rw [List.mem_map] at hop
    obtain ⟨face, _, rfl⟩ := hop
    exact ⟨b, hb⟩

theorem cellFaces_rSingle : cellFaces rSingle 0 0 0 = [0, 2, 4] := by
  unfold cellFaces
  rw [generate_visibility_map_row rSingle (by decide) (by decide) (by decide)
    (by decide) (by decide) (by decide)]
  decide

theorem rSingle_op_mem : (((0 : Int), (0 : Int), (0 : Int)), 2) ∈ facesList rSingle :=
  mem_facesList_of (mem_cellList (by decide) (by decide) (by decide) (by decide)
      (by decide) (by decide))
    (b := 0) (by decide)
    (by rw [cellFaces_rSingle]; decide)

/-- C7 counterexample: the index sequence emitted for the single-block
request is not monotonically increasing — already the first quad runs
0, 1, 2, 2, 1, 3. -/
theorem mesh_chunk_indices_not_monotone :
    ¬ (mesh_chunk rSingle).indices.Pairwise (· ≤ ·) := by
  intro hmono
  rw [mesh_chunk_characterization] at hmono
  dsimp only at hmono
  have hn : 0 < visibleFaceCount rSingle :=
    List.length_pos_of_mem rSingle_op_mem
  obtain ⟨m, hm⟩ : ∃ m, visibleFaceCount rSingle = m + 1 :=
    ⟨visibleFaceCount rSingle - 1, by omega⟩
  rw [hm] at hmono
  unfold canonicalIndices at hmono
  rw [List.range_succ_eq_map, List.flatMap_cons] at hmono
  have h6 : (quadIndices 0).Pairwise (· ≤ ·) :=
    List.Pairwise.sublist (List.sublist_append_left _ _) hmono
  revert h6
  decide

theorem quadVerticesDir_color {coords : InnerChunkCoords}
    {face_dir : FaceDirection} {color : Color} {v : Vertex}
    (hv : v ∈ quadVerticesDir coords face_dir color) : v.color = color := by
  unfold quadVerticesDir at hv
  rw [List.mem_map] at hv
  obtain ⟨p, _, rfl⟩ := hv
  rfl

/-- C6 amended: the vertex buffer consists exactly of the visible faces'
quads, where each quad's four vertices all carry the same color, and
that color is the position checkerboard `parityColor x z` — a function
of the block's cell coordinates, not of its BlockId; additionally, every
emitted vertex is painted one of the two checkerboard greens. -/
theorem mesh_chunk_vertices_checkerboard (request : MeshChunkRequest) :
    (mesh_chunk request).vertices
      = (facesList request).flatMap
          (fun op =>
            quadVerticesDir (InnerChunkCoords.new op.1.1 op.1.2.1 op.1.2.2)
              (FaceDirection.fromUsize op.2) (parityColor op.1.1 op.1.2.2))
    ∧ (mesh_chunk request).vertices.all
        (fun v => decide (v.color = Color.new 16 200 16
          ∨ v.color = Color.new 16 164 16)) = true := by
  rw [mesh_chunk_characterization]
  refine ⟨rfl, ?_⟩
  rw [List.all_eq_true]
  intro v hv
  rw [decide_eq_true_eq]
  dsimp only at hv
  rw [List.mem_flatMap] at hv
  obtain ⟨op, _, hvq⟩ := hv
  rw [quadVerticesDir_color hvq]
  unfold parityColor
  by_cases hpar : (op.1.1 + op.1.2.2) % 2 = 0
  · rw [if_pos hpar]; exact Or.inl rfl
  · rw [if_neg hpar]; exact Or.inr rfl

/-- Chunk holding blocks of the same id 7 at (0, 0, 0) and (1, 0, 0)
(flat indices 0 and 1). -/
def pairChunk : Chunk :=
  ⟨fun i => if i = 0 then some 7 else if i = 1 then some 7 else none⟩

/-- Request whose chunk holds two id-7 blocks side by side, with all
neighbor snapshots absent. -/
def rPair : MeshChunkRequest :=
  ⟨ChunkCoords.new 0 0 0, pairChunk, none, none, none, none, none, none⟩

/-- The id of the block at an operation's cell (0 if the cell is empty;
every operation in a `facesList` has an occupied cell). -/
def blockIdAt (request : MeshChunkRequest) (op : EmitOp) : BlockId :=
  match request.requested_chunk.get_block
      (InnerChunkCoords.new op.1.1 op.1.2.1 op.1.2.2) with
  | some b => b
  | none => 0

theorem rPair_block_id {p : InnerChunkCoords} {b : BlockId}
    (h : rPair.requested_chunk.get_block p = some b) : b = 7 := by
  unfold rPair pairChunk Chunk.get_block at h
  dsimp only at h
  by_cases h0 : p.as_idx = 0
  · rw [if_pos h0] at h
    injection h with hh
    exact hh.symm
  · rw [if_neg h0] at h
    by_cases h1 : p.as_idx = 1
    · rw [if_pos h1] at h
      injection h with hh
      exact hh.symm
    · rw [if_neg h1] at h
      exact absurd h (by simp)

theorem cellFaces_rPair_000 : cellFaces rPair 0 0 0 = [2, 4] := by
  unfold cellFaces
  rw [generate_visibility_map_row rPair (by decide) (by decide) (by decide)
    (by decide) (by decide) (by decide)]
  decide

theorem cellFaces_rPair_100 : cellFaces rPair 1 0 0 = [0, 2, 4] := by
  unfold cellFaces
  rw [generate_visibility_map_row rPair (by decide) (by decide) (by decide)
    (by decide) (by decide) (by decide)]
  decide

theorem rPair_op1_mem : (((0 : Int), (0 : Int), (0 : Int)), 2) ∈ facesList rPair :=
  mem_facesList_of (mem_cellList (by decide) (by decide) (by decide) (by decide)
      (by decide) (by decide))
    (b := 7) (by decide)
    (by rw [cellFaces_rPair_000]; decide)

theorem rPair_op2_mem : (((1 : Int), (0 : Int), (0 : Int)), 0) ∈ facesList rPair :=
  mem_facesList_of (mem_cellList (by decide) (by decide) (by decide) (by decide)
      (by decide) (by decide))
    (b := 7) (by decide)
    (by rw [cellFaces_rPair_100]; decide)

/-- C6 counterexample: no per-BlockId color lookup can produce the
emitted vertex colors.  In `rPair` every occupied cell carries BlockId
7, yet the emitted quads are painted two different colors — the
checkerboard gives (16,200,16) at cell (0,0,0) and (16,164,16) at cell
(1,0,0) — so the quad color is not a lookup applied to the BlockId. -/
theorem mesh_chunk_color_not_from_block_id :
    ¬ ∃ f : BlockId → Color,
      (mesh_chunk rPair).vertices
        = (facesList rPair).flatMap
            (fun op =>
              quadVerticesDir (InnerChunkCoords.new op.1.1 op.1.2.1 op.1.2.2)
                (FaceDirection.fromUsize op.2) (f (blockIdAt rPair op))) := by
  rintro ⟨f, heq⟩
  rw [mesh_chunk_characterization rPair] at heq
  dsimp only at heq
  have hv1 : (⟨rotatePoint (FaceDirection.fromUsize 2)
          ⟨-(1/2 : Rat), 1/2, -(1/2 : Rat)⟩
        + (InnerChunkCoords.new 0 0 0).as_block_center,
        parityColor 0 0⟩ : Vertex)
      ∈ (facesList rPair).flatMap quadVerts :=
    List.mem_flatMap.mpr
      ⟨(((0 : Int), (0 : Int), (0 : Int)), 2), rPair_op1_mem,
        List.mem_cons_self _ _⟩
  have hv2 : (⟨rotatePoint (FaceDirection.fromUsize 0)
          ⟨-(1/2 : Rat), 1/2, -(1/2 : Rat)⟩
        + (InnerChunkCoords.new 1 0 0).as_block_center,
        parityColor 1 0⟩ : Vertex)
      ∈ (facesList rPair).flatMap quadVerts :=
    List.mem_flatMap.mpr
      ⟨(((1 : Int), (0 : Int), (0 : Int)), 0), rPair_op2_mem,
        List.mem_cons_self _ _⟩
  rw [heq] at hv1 hv2
  rw [List.mem_flatMap] at hv1 hv2
  obtain ⟨op1, hop1, hq1⟩ := hv1
  obtain ⟨op2, hop2, hq2⟩ := hv2
  have hid1 : blockIdAt rPair op1 = 7 := by
    obtain ⟨b, hb⟩ := mem_facesList_block hop1
    unfold blockIdAt
    rw [hb]
    exact rPair_block_id hb
  have hid2 : blockIdAt rPair op2 = 7 := by
    obtain ⟨b, hb⟩ := mem_facesList_block hop2
    unfold blockIdAt
    rw [hb]
    exact rPair_block_id hb
  have hc1 := quadVerticesDir_color hq1
  have hc2 := quadVerticesDir_color hq2
  rw [hid1] at hc1
  rw [hid2] at hc2
  rw [← hc1] at hc2
  exact absurd hc2 (by decide)

/-! ### The worker loop and the integration step -/

theorem chunk_mesher_loop_ok (reqs : List MeshChunkRequest) :
    chunk_mesher_loop reqs true
      = .ok (reqs.map fun r => ⟨r.requested_coords, mesh_chunk r⟩) := by
  induction reqs with
  | nil => rfl
  | cons r rest ih => simp [chunk_mesher_loop, ih]

/-- C10: while the pipeline stands, the worker loop answers every
received request with exactly one ConstructedChunk, in order, whose
coords field is the request's requested_coords and whose geometry is
`mesh_chunk` of the request; and the geometry's transform is the
identity rotation with the chunk coordinates' translation (each axis
times SIZE). -/
theorem mesher_loop_one_result_per_request (reqs : List MeshChunkRequest) :
    chunk_mesher_loop reqs true
      = .ok (reqs.map fun r => ⟨r.requested_coords, mesh_chunk r⟩)
    ∧ ∀ r : MeshChunkRequest,
        (mesh_chunk r).transform
          = ⟨Quat.IDENTITY, r.requested_coords.as_translation⟩ :=
  ⟨chunk_mesher_loop_ok reqs, fun r => by rw [mesh_chunk_characterization]⟩

/-- C8 counterexample: with the result channel's receiver dropped, the
worker loop does not terminate cleanly on the next request — the
`.unwrap()` on the failed send panics. -/
theorem mesher_loop_send_failure_panics :
    chunk_mesher_loop [rSingle] false = .error () := rfl

/-- C8 amended: a receive failure (exhausted request stream) ends the
`while let Ok` loop normally with all processed results sent; a SEND
failure, however, hits `.unwrap()` and panics instead of terminating
cleanly. -/
theorem mesher_loop_channel_behavior (reqs : List MeshChunkRequest) :
    chunk_mesher_loop reqs true
      = .ok (reqs.map fun r => ⟨r.requested_coords, mesh_chunk r⟩)
    ∧ ∀ (r : MeshChunkRequest) (rest : List MeshChunkRequest),
        chunk_mesher_loop (r :: rest) false = .error () :=
  ⟨chunk_mesher_loop_ok reqs, fun _ _ => rfl⟩

/-- C5 counterexample: when a ConstructedChunk arrives whose coordinates
have no entry in the handle registry, the integration step panics
(models the `unwrap_or_else(... panic!())` of `update_models_sys`);
the condition is not handled recoverably. -/
theorem update_models_missing_entry_panics :
    update_models_sys (fun _ => none)
      [⟨ChunkCoords.new 0 0 0, ModelConstructor.new⟩] = .error () := rfl

/-- C5 amended: the integration step terminates the process (panics)
exactly when some drained result's coordinates are absent from the
handle registry; results for registered chunks are integrated. -/
theorem update_models_sys_error_iff (entity_map : ChunkCoords → Option Nat)
    (queue : List ConstructedChunk) :
    update_models_sys entity_map queue = .error ()
      ↔ ∃ c ∈ queue, entity_map c.coords = none := by
  induction queue with
  | nil =>
    constructor
    · intro h; exact absurd h (by simp [update_models_sys])
    · rintro ⟨c, hc, _⟩; exact absurd hc (List.not_mem_nil c)
  | cons c rest ih =>
    show (match entity_map c.coords with
      | none => Except.error ()
      | some id =>
        match update_models_sys entity_map rest with
        | .ok models => .ok ((id, c.model_constructor) :: models)
        | .error e => .error e) = Except.error () ↔ _
    cases hm : entity_map c.coords with
    | none =>
      constructor
      · intro _; exact ⟨c, List.mem_cons_self c rest, hm⟩
      · intro _; rfl
    | some id =>
      dsimp only
      cases hr : update_models_sys entity_map rest with
      | ok models =>
        constructor
        · intro h; exact absurd h (by simp)
        · rintro ⟨c', hc', hmap⟩
          rcases List.mem_cons.mp hc' with rfl | hmem
          · rw [hm] at hmap; exact absurd hmap (by simp)
          · have herr : update_models_sys entity_map rest = .error () :=
              ih.mpr ⟨c', hmem, hmap⟩
            rw [hr] at herr
            exact absurd herr (by simp)
      | error e =>
        cases e
        constructor
        · intro _
          obtain ⟨c', hc', hmap⟩ := ih.mp hr
          exact ⟨c', List.mem_cons_of_mem c hc', hmap⟩
        · intro _; rfl

/-- C4 counterexample: constructing an InnerChunkCoords from the
out-of-bounds triple (32, 0, 0) does not fail fatally — the constructor
returns the value, whose x axis violates x < SIZE. -/
theorem innerChunkCoords_new_unvalidated :
    InnerChunkCoords.new 32 0 0 = ⟨32, 0, 0⟩
    ∧ ¬ ((InnerChunkCoords.new 32 0 0).x < Chunk.SIZE) :=
  ⟨rfl, by decide⟩

/-- C4 amended: `InnerChunkCoords::new` performs no bounds validation:
for every integer triple it returns the triple unchanged, so
out-of-bounds values are produced freely; a violation surfaces only
later, at indexing time, and can even alias a different valid cell
silently — (32, 0, 0) maps to the same flat index as (0, 1, 0). -/
theorem innerChunkCoords_new_no_validation :
    (∀ x y z : Int, InnerChunkCoords.new x y z = ⟨x, y, z⟩)
    ∧ (InnerChunkCoords.new 32 0 0).as_idx
        = (InnerChunkCoords.new 0 1 0).as_idx :=
  ⟨fun _ _ _ => rfl, by decide⟩
